import Mathlib

/-!
Verification of the core game logic of the Fruitopian Defender prototype
(src/experiments/src/game.rs, helpers.rs, lib.rs), shallowly embedded in Lean.

Conventions of the embedding:
* `f64`/`f32` quantities are modelled as rationals (`ℚ`); the claims under
  study concern exact boundary comparisons and additive updates, not rounding.
* Functions that can panic in Rust (`unwrap`, explicit invalid-state aborts)
  return `Option`, with `none` marking the panic.
* Bevy ECS queries are modelled as lists iterated in order; deferred
  `Commands` (entity despawns) are applied at the end of the system run,
  mirroring bevy's end-of-stage command application.
* `Timer` is embedded from the repository's own implementation in
  src/experiments/src/helpers.rs.
-/

namespace Game

/-- Embeds `Duration` from helpers.rs: a number of milliseconds (`f64` there,
`ℚ` here). -/
structure Duration where
  ms : ℚ
deriving DecidableEq, Repr

instance : Add Duration := ⟨fun a b => ⟨a.ms + b.ms⟩⟩

instance : Inhabited Duration := ⟨⟨0⟩⟩

/-- `Duration::as_secs_f64` from helpers.rs: `self.0 / 1000.0`. -/
def Duration.as_secs_f64 (d : Duration) : ℚ := d.ms / 1000

/-- `Duration::as_secs_f32` from helpers.rs (same value in the rational model). -/
def Duration.as_secs_f32 (d : Duration) : ℚ := d.as_secs_f64

/-- `Duration::from_secs_f64` from helpers.rs: `Self(secs * 1000.0)`. -/
def Duration.from_secs_f64 (secs : ℚ) : Duration := ⟨secs * 1000⟩

/-- `Duration::mul_f64` from helpers.rs: `Self(self.0 * rhs)`. -/
def Duration.mul_f64 (d : Duration) (rhs : ℚ) : Duration := ⟨d.ms * rhs⟩

/-- Embeds `Time` from helpers.rs, keeping the field the core logic reads
(`delta_since_previous`); the wall-clock `Instant` fields (`js_sys::Date::now`)
are outside the embedding. -/
structure Time where
  delta_since_previous : Duration
deriving DecidableEq, Repr

/-- `Time::delta` from helpers.rs. -/
def Time.delta (t : Time) : Duration := t.delta_since_previous

/-- `Time::delta_seconds_f64` from helpers.rs. -/
def Time.delta_seconds_f64 (t : Time) : ℚ := t.delta_since_previous.as_secs_f64

/-- Embeds `Timer` from helpers.rs. -/
structure Timer where
  duration : Duration
  elapsed : Duration
  auto_reset : Bool
deriving DecidableEq, Repr

/-- `Timer::new` from helpers.rs: elapsed starts at the default (zero). -/
def Timer.new (duration : Duration) (auto_reset : Bool) : Timer :=
  ⟨duration, default, auto_reset⟩

/-- `Timer::from_seconds` from helpers.rs. -/
def Timer.from_seconds (duration : ℚ) (auto_reset : Bool) : Timer :=
  Timer.new (Duration.from_secs_f64 duration) auto_reset

/-- `Timer::tick` from helpers.rs: `self.elapsed += delta`. -/
def Timer.tick (t : Timer) (delta : Duration) : Timer :=
  { t with elapsed := t.elapsed + delta }

/-- `Timer::finished` from helpers.rs: `self.elapsed > self.duration`
(strict comparison on the millisecond values). -/
def Timer.finished (t : Timer) : Bool :=
  decide (t.duration.ms < t.elapsed.ms)

/-- `Timer::percent` from helpers.rs:
`self.elapsed.as_secs_f32() / self.duration.as_secs_f32()`. -/
def Timer.percent (t : Timer) : ℚ :=
  t.elapsed.as_secs_f32 / t.duration.as_secs_f32

/-- `Timer::percent_left` from helpers.rs: `1.0 - self.percent()`. -/
def Timer.percent_left (t : Timer) : ℚ := 1 - t.percent

/-- `Timer::reset` from helpers.rs: `self.elapsed = Duration::default()`. -/
def Timer.reset (t : Timer) : Timer := { t with elapsed := ⟨0⟩ }

/-- `Timer::set_duration` from helpers.rs. -/
def Timer.set_duration (t : Timer) (duration : Duration) : Timer :=
  { t with duration := duration }

/-- `CombatType` from game.rs: closed enumeration {A, B, C, D}. -/
inductive CombatType where
  | A
  | B
  | C
  | D
deriving DecidableEq, Repr

/-- `ParkingSpace` from game.rs: an empty marker struct. -/
inductive ParkingSpace where
  | mk
deriving DecidableEq, Repr

/-- `Token<T> = Arc<PhantomData<T>>` from game.rs: an opaque capacity claim
carrying no data. -/
inductive Token (T : Type) where
  | mk
deriving DecidableEq, Repr

/-- Embeds `TokenPool<T>` from game.rs. The source stores an
`Arc<PhantomData<T>>` and counts capacity through `Arc::strong_count`; the
embedding keeps that strong count explicitly: the pool's own reference plus
one per outstanding token clone. -/
structure TokenPool (T : Type) where
  strong_count : ℕ
  max_count : ℕ
deriving DecidableEq, Repr

/-- `TokenPool::new` from game.rs: a fresh `Arc` has strong count 1
(no outstanding tokens). -/
def TokenPool.new (T : Type) (initial_count : ℕ) : TokenPool T :=
  ⟨1, initial_count⟩

/-- `TokenPool::can_take` from game.rs:
`Arc::strong_count(&self.token_holder) < self.max_count + 1`. -/
def TokenPool.can_take {T : Type} (p : TokenPool T) : Bool :=
  decide (p.strong_count < p.max_count + 1)

/-- `TokenPool::try_take` from game.rs: returns `None` unless `can_take`,
otherwise clones the holder (incrementing the strong count). -/
def TokenPool.try_take {T : Type} (p : TokenPool T) :
    Option (Token T) × TokenPool T :=
  if p.can_take then (some Token.mk, { p with strong_count := p.strong_count + 1 })
  else (none, p)

/-- `TokenPool::slots_used` from game.rs:
`Arc::strong_count(&self.token_holder) - 1`. -/
def TokenPool.slots_used {T : Type} (p : TokenPool T) : ℕ :=
  p.strong_count - 1

/-- Dropping one outstanding token clone decrements the `Arc` strong count.
A release can only happen while some token clone is live
(`strong_count > 1`). -/
def TokenPool.release {T : Type} (p : TokenPool T) : TokenPool T :=
  if 1 < p.strong_count then { p with strong_count := p.strong_count - 1 } else p

/-- A token-pool event: a `try_take` call or the drop of an outstanding
token. -/
inductive PoolOp where
  | take
  | release
deriving DecidableEq, Repr

/-- Applying one pool event. -/
def TokenPool.apply {T : Type} (p : TokenPool T) : PoolOp → TokenPool T
  | PoolOp.take => p.try_take.2
  | PoolOp.release => p.release

/-- Applying a sequence of pool events in order. -/
def TokenPool.applyOps {T : Type} (p : TokenPool T) (ops : List PoolOp) :
    TokenPool T :=
  ops.foldl TokenPool.apply p

/-- Embeds `Health` from game.rs: an `f64` starting at 1.0. -/
structure Health where
  val : ℚ
deriving DecidableEq, Repr

/-- `Health::default` from game.rs: `Self(1.0)`. -/
def Health.default : Health := ⟨1⟩

/-- `Health::repair_tick` from game.rs:
`self.0 = (self.0 + delta_seconds / 15.0).min(1.0)`. -/
def Health.repair_tick (h : Health) (time : Time) : Health :=
  ⟨min (h.val + time.delta_seconds_f64 / 15) 1⟩

/-- `Health::take_hit` from game.rs: subtract 0.25, and issue a deferred
despawn command for the owning entity when the result is ≤ 0. The returned
`Bool` records whether the despawn command was issued. -/
def Health.take_hit (h : Health) : Health × Bool :=
  let h2 : Health := ⟨h.val - 1/4⟩
  (h2, decide (h2.val ≤ 0))

/-- Embeds the `Unit` state enum from game.rs. -/
inductive Unit where
  | InStorage
  | UnStoring (timer : Timer) (token : Token ParkingSpace)
  | ParkedUnready (token : Token ParkingSpace)
  | ParkedPreparing (timer : Timer) (token : Token ParkingSpace) (ct : CombatType)
  | ParkedReady (token : Token ParkingSpace) (ct : CombatType)
  | Patrolling (timer : Timer) (ct : CombatType)
  | Returning (timer : Timer) (ct : CombatType)
  | WaitingToPark
  | Storing (timer : Timer)
  | Parking (timer : Timer) (token : Token ParkingSpace)
deriving DecidableEq, Repr

/-- `Unit::tick` from game.rs: advances the active timer of the current state
and applies the state-specific transition when it finishes; the four
non-timed states (`InStorage`, `ParkedUnready`, `ParkedReady`,
`WaitingToPark`) do nothing. -/
def Unit.tick (u : Game.Unit) (time : Time) : Game.Unit :=
  match u with
  | Unit.ParkedPreparing timer parking_space combat_type =>
      let timer := timer.tick time.delta
      if timer.finished then Unit.ParkedReady parking_space combat_type
      else Unit.ParkedPreparing timer parking_space combat_type
  | Unit.Patrolling timer ct =>
      let timer := timer.tick time.delta
      if timer.finished then Unit.WaitingToPark
      else Unit.Patrolling timer ct
  | Unit.Returning timer ct =>
      let timer := timer.tick time.delta
      if timer.finished then Unit.WaitingToPark
      else Unit.Returning timer ct
  | Unit.UnStoring timer parking_space =>
      let timer := timer.tick time.delta
      if timer.finished then Unit.ParkedUnready parking_space
      else Unit.UnStoring timer parking_space
  | Unit.Storing timer =>
      let timer := timer.tick time.delta
      if timer.finished then Unit.InStorage
      else Unit.Storing timer
  | Unit.Parking timer parking_space =>
      let timer := timer.tick time.delta
      if timer.finished then Unit.ParkedUnready parking_space
      else Unit.Parking timer parking_space
  | Unit.InStorage => Unit.InStorage
  | Unit.ParkedUnready t => Unit.ParkedUnready t
  | Unit.ParkedReady t ct => Unit.ParkedReady t ct
  | Unit.WaitingToPark => Unit.WaitingToPark

/-- `Unit::progress_percent` from game.rs: the patrol timer's percent for a
`Patrolling` unit, `0.0` for every other state. -/
def Unit.progress_percent (u : Game.Unit) : ℚ :=
  match u with
  | Unit.Patrolling timer _ => timer.percent
  | _ => 0

/-- `Unit::return_to_base` from game.rs: `Patrolling(timer, ct)` becomes
`Returning(timer.clone(), ct)`; every other state panics
(`none` marks the panic). -/
def Unit.return_to_base (u : Game.Unit) : Option Game.Unit :=
  match u with
  | Unit.Patrolling timer combat_type => some (Unit.Returning timer combat_type)
  | _ => none

/-- `Unit::un_store` from game.rs: on `InStorage`, takes a token from the pool
with `try_take().unwrap()` — `none` marks the panic of the `unwrap` when the
pool is exhausted — and becomes `UnStoring(Timer::from_seconds(10.0, false),
token)`; every other state panics. -/
def Unit.un_store (u : Game.Unit) (parking_spaces : TokenPool ParkingSpace) :
    Option (Game.Unit × TokenPool ParkingSpace) :=
  match u with
  | Unit.InStorage =>
      match parking_spaces.try_take with
      | (some parking_space, pool) =>
          some (Unit.UnStoring (Timer.from_seconds 10 false) parking_space, pool)
      | (none, _) => none
  | _ => none

/-- `Unit::prepare` from game.rs: on `ParkedUnready`, becomes
`ParkedPreparing(Timer::from_seconds(5.0, false), token, ct)`; every other
state panics. -/
def Unit.prepare (u : Game.Unit) (combat_type : CombatType) : Option Game.Unit :=
  match u with
  | Unit.ParkedUnready parking_space =>
      some (Unit.ParkedPreparing (Timer.from_seconds 5 false) parking_space combat_type)
  | _ => none

/-- `Unit::take_off` from game.rs: on `ParkedReady(token, ct)`, becomes
`Patrolling(Timer::from_seconds(30.0, false), ct)` (the token is dropped);
every other state panics. -/
def Unit.take_off (u : Game.Unit) : Option Game.Unit :=
  match u with
  | Unit.ParkedReady _ combat_type =>
      some (Unit.Patrolling (Timer.from_seconds 30 false) combat_type)
  | _ => none

/-- `Unit::move_into_storage` from game.rs: allowed from `ParkedUnready`,
`ParkedPreparing`, `ParkedReady` and `WaitingToPark`; becomes
`Storing(Timer::from_seconds(10.0, false))`; every other state panics. -/
def Unit.move_into_storage (u : Game.Unit) : Option Game.Unit :=
  match u with
  | Unit.ParkedUnready _ => some (Unit.Storing (Timer.from_seconds 10 false))
  | Unit.ParkedPreparing _ _ _ => some (Unit.Storing (Timer.from_seconds 10 false))
  | Unit.ParkedReady _ _ => some (Unit.Storing (Timer.from_seconds 10 false))
  | Unit.WaitingToPark => some (Unit.Storing (Timer.from_seconds 10 false))
  | _ => none

/-- `Unit::park_after_returning` from game.rs: on `WaitingToPark`, takes a
token with `try_take().unwrap()` — `none` marks the panic of the `unwrap`
when the pool is exhausted — and becomes
`Parking(Timer::from_seconds(5.0, false), token)`; every other state
panics. -/
def Unit.park_after_returning (u : Game.Unit)
    (parking_spaces : TokenPool ParkingSpace) :
    Option (Game.Unit × TokenPool ParkingSpace) :=
  match u with
  | Unit.WaitingToPark =>
      match parking_spaces.try_take with
      | (some parking_space, pool) =>
          some (Unit.Parking (Timer.from_seconds 5 false) parking_space, pool)
      | (none, _) => none
  | _ => none

/-- Embeds the "Bring out of storage" button handling of `gui` in game.rs for
an `InStorage` unit: when `!parking_spaces.can_take()` the surrounding widgets
are disabled (`ui.set_enabled(false)`), so a click cannot occur and `un_store`
is not invoked; otherwise a click invokes `un_store`. -/
def gui_bring_out (u : Game.Unit) (parking_spaces : TokenPool ParkingSpace)
    (clicked : Bool) : Option (Game.Unit × TokenPool ParkingSpace) :=
  if parking_spaces.can_take && clicked then u.un_store parking_spaces
  else some (u, parking_spaces)

/-- Embeds the "Park" button handling of `gui` in game.rs for a
`WaitingToPark` unit: when `!parking_spaces.can_take()` the button is
disabled (`ui.set_enabled(false)`), so a click cannot occur and
`park_after_returning` is not invoked; otherwise a click invokes it. -/
def gui_park (u : Game.Unit) (parking_spaces : TokenPool ParkingSpace)
    (clicked : Bool) : Option (Game.Unit × TokenPool ParkingSpace) :=
  if parking_spaces.can_take && clicked then u.park_after_returning parking_spaces
  else some (u, parking_spaces)

/-- `Enemy` from game.rs. -/
structure Enemy where
  progress : Timer
  combat_type : CombatType
deriving DecidableEq, Repr

/-- `Enemy::new` from game.rs. -/
def Enemy.new (run_time : Duration) (combat_type : CombatType) : Enemy :=
  ⟨Timer.new run_time false, combat_type⟩

/-- `Enemy::tick` from game.rs. -/
def Enemy.tick (e : Enemy) (time : Time) : Enemy :=
  { e with progress := e.progress.tick time.delta }

/-- `Enemy::remaining_percent` from game.rs. -/
def Enemy.remaining_percent (e : Enemy) : ℚ :=
  e.progress.percent_left

/-- The condition under which a unit hits an enemy inside
`units_meet_enemies` (game.rs): the unit is `Patrolling` with the enemy's
combat type (the `suitable_units` filter) and
`unit.progress_percent() >= enemy.remaining_percent()`. -/
def unit_hits (e : Enemy) (u : Game.Unit) : Bool :=
  match u with
  | Unit.Patrolling _ ct =>
      decide (ct = e.combat_type) && decide (e.remaining_percent ≤ u.progress_percent)
  | _ => false

/-- A row of the `units` query in `units_meet_enemies`: a unit, its health,
and whether a deferred despawn command has been issued for it by
`Health::take_hit`. -/
structure UnitRow where
  unit : Game.Unit
  health : Health
  despawned : Bool
deriving DecidableEq, Repr

/-- The body of the inner loop of `units_meet_enemies` (game.rs) for one
unit row: when the row hits the enemy, `return_to_base` converts it to
`Returning` (carrying the patrol timer over) and `take_hit` subtracts 0.25
health, recording the deferred despawn when health drops to ≤ 0; otherwise
the row is untouched. -/
def hitRow (e : Enemy) (r : UnitRow) : UnitRow :=
  if unit_hits e r.unit then
    match r.unit with
    | Unit.Patrolling timer ct =>
        let hit := r.health.take_hit
        ⟨Unit.Returning timer ct, hit.1, r.despawned || hit.2⟩
    | _ => r
  else r

/-- One iteration of the outer loop of `units_meet_enemies` (game.rs): the
lazy `suitable_units` filter re-tests each unit as it is reached, so every
still-`Patrolling` matching unit whose progress has caught up hits the
enemy (there is no `break`); the returned flag records whether a despawn
command was issued for the enemy. -/
def meetOneEnemy (e : Enemy) (rows : List UnitRow) : List UnitRow × Bool :=
  (rows.map (hitRow e), rows.any fun r => unit_hits e r.unit)

/-- The outer loop of `units_meet_enemies` (game.rs): enemies are processed
in order, threading the unit rows; despawn commands are deferred, so a hit
enemy is removed only after the whole pass. -/
def meetEnemiesGo (rows : List UnitRow) :
    List Enemy → List UnitRow × List Enemy
  | [] => (rows, [])
  | e :: es =>
      ((meetEnemiesGo (meetOneEnemy e rows).1 es).1,
        if (meetOneEnemy e rows).2 then (meetEnemiesGo (meetOneEnemy e rows).1 es).2
        else e :: (meetEnemiesGo (meetOneEnemy e rows).1 es).2)

/-- Embeds `units_meet_enemies` from game.rs over list-modelled queries:
after the pass, bevy applies the deferred commands, removing hit enemies
and units whose health dropped to ≤ 0. -/
def units_meet_enemies (units : List (Game.Unit × Health))
    (enemies : List Enemy) : List (Game.Unit × Health) × List Enemy :=
  let rows := units.map fun uh => UnitRow.mk uh.1 uh.2 false
  let res := meetEnemiesGo rows enemies
  (((res.1.filter fun r => !r.despawned).map fun r => (r.unit, r.health)), res.2)

/-- The trajectory of a single unit row across a whole resolver pass: since
each enemy's iteration updates unit rows pointwise (`meetOneEnemy` maps
`hitRow` over the rows), a row's final value is the fold of `hitRow` over
the enemy list. -/
def passRow (es : List Enemy) (r : UnitRow) : UnitRow :=
  es.foldl (fun r e => hitRow e r) r

/-- A patrol timer at the halfway point: 15 s elapsed of a 30 s patrol
(progress 0.5). -/
def patrolTimerHalf : Timer :=
  (Timer.from_seconds 30 false).tick (Duration.from_secs_f64 15)

/-- A type-A unit patrolling at progress 0.5. -/
def patrolUnitA : Game.Unit :=
  Game.Unit.Patrolling patrolTimerHalf CombatType.A

/-- A type-A enemy 18 s into a 30 s run: remaining percent 0.4. -/
def enemyA40 : Enemy :=
  (Enemy.new (Duration.from_secs_f64 30) CombatType.A).tick ⟨Duration.from_secs_f64 18⟩

/-- Embeds `repair_tick` from game.rs: every `InStorage` unit's health is
repaired; all other units are untouched. -/
def repair_tick (time : Time) (units : List (Game.Unit × Health)) :
    List (Game.Unit × Health) :=
  units.map fun uh =>
    if uh.1 = Unit.InStorage then (uh.1, uh.2.repair_tick time) else uh

/-- `EnemySpawner` from game.rs. -/
structure EnemySpawner where
  time_to_next_spawn : Timer
  mean_time_between_enemies : Duration
deriving DecidableEq, Repr

/-- `EnemySpawner::new_time_to_next_spawn` from game.rs: the sample drawn
from `Normal::new(mean.as_secs_f64(), 5.0)` is passed in as `sample`
(the randomness is external to the embedding); the code clamps it to
`[1.0, 10.0]` seconds. -/
def EnemySpawner.new_time_to_next_spawn (_mean_time_between_enemies : Duration)
    (sample : ℚ) : Duration :=
  Duration.from_secs_f64 (min (max sample 1) 10)

/-- `EnemySpawner::tick` from game.rs: advances the countdown; when it
finishes, spawns one enemy with run time 30 s and the externally drawn
combat type, multiplies the mean inter-arrival duration by 0.97, draws the
next inter-arrival duration (`sample` is the normal draw around the new
mean) and resets the timer with it. -/
def EnemySpawner.tick (sp : EnemySpawner) (time : Time)
    (enemies : List Enemy) (ct : CombatType) (sample : ℚ) :
    EnemySpawner × List Enemy :=
  let t := sp.time_to_next_spawn.tick time.delta
  if t.finished then
    let enemies2 := enemies ++ [Enemy.new (Duration.from_secs_f64 30) ct]
    let mean2 := sp.mean_time_between_enemies.mul_f64 (97/100)
    let next := EnemySpawner.new_time_to_next_spawn mean2 sample
    (⟨(t.set_duration next).reset, mean2⟩, enemies2)
  else (⟨t, sp.mean_time_between_enemies⟩, enemies)

/-- Embeds `spawn_enemies` from game.rs. -/
def spawn_enemies (sp : EnemySpawner) (time : Time) (enemies : List Enemy)
    (ct : CombatType) (sample : ℚ) : EnemySpawner × List Enemy :=
  sp.tick time enemies ct sample

/-- Modelled from the spec: `GameState` is referenced by lib.rs
(`crate::game::GameState`) but the game.rs variant under src/ does not
define it; per the spec it is the enumeration {Running, GameOver} with a
monotonic one-way transition Running → GameOver. -/
inductive GameState where
  | Running
  | GameOver
deriving DecidableEq, Repr

/-- Embeds `ticker` from game.rs: ticks every unit and every enemy, and
raises the game-over signal when some enemy's progress timer has finished.
The write of the signal into `GameState` (performed by the lib.rs variant
of `ticker`, whose body is not under src/) is modelled from the spec:
the transition to `GameOver` is triggered when any enemy's progress timer
finishes while the state is `Running`. -/
def ticker (time : Time) (units : List (Game.Unit × Health))
    (enemies : List Enemy) (game_state : GameState) :
    List (Game.Unit × Health) × List Enemy × GameState :=
  let units2 := units.map fun uh => (uh.1.tick time, uh.2)
  let enemies2 := enemies.map fun e => e.tick time
  let gs := if enemies2.any fun e => e.progress.finished then GameState.GameOver
            else game_state
  (units2, enemies2, gs)

/-- Embeds the game-session state of `MyGame` from lib.rs (the fields the
core logic reads and writes; `play_time` and the egui context are
presentation-side and omitted). -/
structure MyGame where
  enemy_spawner : EnemySpawner
  parking_spaces : TokenPool ParkingSpace
  game_state : GameState
  time : Time
  units : List (Game.Unit × Health)
  enemies : List Enemy
deriving DecidableEq, Repr

/-- Embeds `MyGame::update` from lib.rs: when the state is `Running` it runs
`ticker`, `units_meet_enemies`, `spawn_enemies` and `repair_tick` in that
order; when the state is `GameOver` none of them run. `gui` receives the
game state by shared reference (`&self.game_state`) and so never writes it;
player commands collected by `gui` are outside this per-frame core step.
`ct` and `sample` stand for the spawner's random draws. -/
def MyGame.update (g : MyGame) (ct : CombatType) (sample : ℚ) : MyGame :=
  if g.game_state = GameState.Running then
    let t := ticker g.time g.units g.enemies g.game_state
    let m := units_meet_enemies t.1 t.2.1
    let s := spawn_enemies g.enemy_spawner g.time m.2 ct sample
    let u := repair_tick g.time m.1
    { g with
      game_state := t.2.2
      units := u
      enemies := s.2
      enemy_spawner := s.1 }
  else g

/-- A spawner with a 1-second countdown and a 30-second mean. -/
def sampleSpawner : EnemySpawner :=
  EnemySpawner.mk (Timer.from_seconds 1 false) (Duration.from_secs_f64 30)

/-- A pool with three parking spaces, none taken. -/
def samplePool : TokenPool ParkingSpace := TokenPool.new ParkingSpace 3

/-- A frame time of 2 seconds. -/
def sampleTime : Time := ⟨Duration.from_secs_f64 2⟩

/-- An enemy whose 1-second run finishes within the next 2-second frame. -/
def finishingEnemy : Enemy := Enemy.new (Duration.from_secs_f64 1) CombatType.A

/-- A game session already at `GameOver`, with no units or enemies. -/
def gameOverSession : MyGame :=
  MyGame.mk sampleSpawner samplePool GameState.GameOver sampleTime [] []

/-- A running game session whose single enemy finishes this frame. -/
def runningHitSession : MyGame :=
  MyGame.mk sampleSpawner samplePool GameState.Running sampleTime [] [finishingEnemy]

end Game

namespace Game

@[simp]
theorem Duration.add_ms (a b : Duration) : (a + b).ms = a.ms + b.ms := rfl

@[simp]
theorem Duration.from_secs_f64_ms (s : ℚ) :
    (Duration.from_secs_f64 s).ms = s * 1000 := rfl

@[simp]
theorem Duration.default_ms : (default : Duration).ms = 0 := rfl

@[simp]
theorem Timer.new_elapsed (d : Duration) (b : Bool) :
    (Timer.new d b).elapsed.ms = 0 := rfl

@[simp]
theorem Timer.new_duration (d : Duration) (b : Bool) :
    (Timer.new d b).duration = d := rfl

@[simp]
theorem Timer.from_seconds_elapsed (d : ℚ) (b : Bool) :
    (Timer.from_seconds d b).elapsed.ms = 0 := rfl

@[simp]
theorem Timer.from_seconds_duration (d : ℚ) (b : Bool) :
    (Timer.from_seconds d b).duration.ms = d * 1000 := rfl

@[simp]
theorem Timer.tick_elapsed (t : Timer) (d : Duration) :
    (t.tick d).elapsed.ms = t.elapsed.ms + d.ms := rfl

@[simp]
theorem Timer.tick_duration (t : Timer) (d : Duration) :
    (t.tick d).duration = t.duration := rfl

theorem Timer.foldl_tick_elapsed (deltas : List Duration) (t : Timer) :
    (deltas.foldl Timer.tick t).elapsed.ms
      = t.elapsed.ms + (deltas.map Duration.ms).sum := by
  induction deltas generalizing t with
  | nil => simp
  | cons d ds ih =>
      simp only [List.foldl_cons, List.map_cons, List.sum_cons, ih,
        Timer.tick_elapsed]
      ring

theorem Timer.foldl_tick_duration (deltas : List Duration) (t : Timer) :
    (deltas.foldl Timer.tick t).duration = t.duration := by
  induction deltas generalizing t with
  | nil => rfl
  | cons d ds ih => simp [ih]

/-- Claim C5, as stated, fails at the boundary: a 5-second timer ticked by
exactly 5 seconds has elapsed equal to its duration (so elapsed ≥ duration),
yet `finished()` is still false, because helpers.rs compares with a strict
`elapsed > duration`. -/
theorem C5_counterexample :
    ((Timer.from_seconds 5 false).tick (Duration.from_secs_f64 5)).elapsed.ms
      = ((Timer.from_seconds 5 false).tick (Duration.from_secs_f64 5)).duration.ms
    ∧ ((Timer.from_seconds 5 false).tick (Duration.from_secs_f64 5)).finished = false := by
  constructor
  · simp
  · simp [Timer.finished]

/-- Claim C5 (amended): for a timer created by `from_seconds d` and advanced
by any sequence of `tick` calls, the elapsed time is the sum of the deltas,
and `finished()` holds exactly when that sum strictly exceeds the duration:
it is false whenever elapsed ≤ duration (in particular strictly before the
boundary and at the boundary itself) and true as soon as elapsed exceeds
duration. -/
theorem C5_finished_strict_boundary (d : ℚ) (deltas : List Duration) :
    (deltas.foldl Timer.tick (Timer.from_seconds d false)).elapsed.ms
      = (deltas.map Duration.ms).sum
    ∧ ((deltas.foldl Timer.tick (Timer.from_seconds d false)).finished = true
        ↔ d * 1000 < (deltas.map Duration.ms).sum)
    ∧ ((deltas.foldl Timer.tick (Timer.from_seconds d false)).finished = false
        ↔ (deltas.map Duration.ms).sum ≤ d * 1000) := by
  have helapsed := Timer.foldl_tick_elapsed deltas (Timer.from_seconds d false)
  have hdur := Timer.foldl_tick_duration deltas (Timer.from_seconds d false)
  have h0 : (Timer.from_seconds d false).elapsed.ms = 0 := rfl
  have hd : (Timer.from_seconds d false).duration.ms = d * 1000 := rfl
  rw [h0, zero_add] at helapsed
  refine ⟨helapsed, ?_, ?_⟩
  · simp [Timer.finished, helapsed, hdur, hd]
  · simp [Timer.finished, helapsed, hdur, hd]

/-- Claim C6: `return_to_base` panics (modelled as `none`) exactly on
non-`Patrolling` units and `take_off` panics exactly on non-`ParkedReady`
units; on the valid source states the calls succeed, `return_to_base`
carrying the patrol timer over and `take_off` starting a fresh 30-second
patrol. -/
theorem C6_invalid_transitions_panic (u : Game.Unit) :
    (u.return_to_base = none ↔ ∀ timer ct, u ≠ Game.Unit.Patrolling timer ct)
    ∧ (u.take_off = none ↔ ∀ token ct, u ≠ Game.Unit.ParkedReady token ct)
    ∧ (∀ timer ct, u = Game.Unit.Patrolling timer ct →
        u.return_to_base = some (Game.Unit.Returning timer ct))
    ∧ (∀ token ct, u = Game.Unit.ParkedReady token ct →
        u.take_off = some (Game.Unit.Patrolling (Timer.from_seconds 30 false) ct)) := by
  cases u <;>
    simp [Unit.return_to_base, Unit.take_off]
  exact ⟨Token.mk, trivial⟩

/-- Witness for C6 at concrete inputs: a `WaitingToPark` unit panics on both
calls, and a patrolling / ready unit succeeds. -/
theorem C6_invalid_transitions_panic_witness :
    Game.Unit.WaitingToPark.return_to_base = none
    ∧ Game.Unit.WaitingToPark.take_off = none
    ∧ patrolUnitA.return_to_base
        = some (Game.Unit.Returning patrolTimerHalf CombatType.A)
    ∧ (Game.Unit.ParkedReady Token.mk CombatType.B).take_off
        = some (Game.Unit.Patrolling (Timer.from_seconds 30 false) CombatType.B) := by
  refine ⟨(C6_invalid_transitions_panic Game.Unit.WaitingToPark).1.mpr ?_,
    (C6_invalid_transitions_panic Game.Unit.WaitingToPark).2.1.mpr ?_,
    (C6_invalid_transitions_panic patrolUnitA).2.2.1 patrolTimerHalf CombatType.A rfl,
    (C6_invalid_transitions_panic (Game.Unit.ParkedReady Token.mk CombatType.B)).2.2.2
      Token.mk CombatType.B rfl⟩
  · intro timer ct
    simp
  · intro token ct
    simp

/-- Claim C10: `progress_percent` is 0 for every non-`Patrolling` unit, so a
non-`Patrolling` unit can never satisfy the combat-resolver hit inequality
`progress_percent ≥ remaining_percent` against an enemy whose remaining
percent is positive (and indeed `unit_hits` is false for it outright). -/
theorem C10_progress_percent_nonpatrolling (u : Game.Unit) (e : Enemy)
    (hnp : ∀ timer ct, u ≠ Game.Unit.Patrolling timer ct) :
    u.progress_percent = 0
    ∧ (0 < e.remaining_percent → ¬ (e.remaining_percent ≤ u.progress_percent))
    ∧ unit_hits e u = false := by
  have hz : u.progress_percent = 0 := by
    cases u
    case Patrolling timer ct => exact absurd rfl (hnp timer ct)
    all_goals rfl
  have hhits : unit_hits e u = false := by
    cases u
    case Patrolling timer ct => exact absurd rfl (hnp timer ct)
    all_goals rfl
  refine ⟨hz, ?_, hhits⟩
  intro hpos hle
  rw [hz] at hle
  exact lt_irrefl 0 (lt_of_lt_of_le hpos hle)

/-- Witness for C10 at concrete inputs: an `InStorage` unit against an enemy
with remaining percent 0.4. -/
theorem C10_progress_percent_nonpatrolling_witness :
    Game.Unit.InStorage.progress_percent = 0
    ∧ (0 < enemyA40.remaining_percent →
        ¬ (enemyA40.remaining_percent ≤ Game.Unit.InStorage.progress_percent))
    ∧ unit_hits enemyA40 Game.Unit.InStorage = false := by
  exact C10_progress_percent_nonpatrolling Game.Unit.InStorage enemyA40
    (by intro timer ct h; cases h)

/-- Claim C8: on a spawn event (the countdown finishing after the tick), the
mean inter-arrival duration is multiplied by exactly 0.97 — so it strictly
decreases for any positive mean — and the next inter-arrival duration is the
normal draw (`sample`) clamped to [1, 10] seconds before the countdown timer
is reset with it (elapsed back to 0); one enemy with a 30-second run time and
the drawn combat type is appended. -/
theorem C8_spawner_ramp (sp : EnemySpawner) (time : Time) (enemies : List Enemy)
    (ct : CombatType) (sample : ℚ)
    (hfin : (sp.time_to_next_spawn.tick time.delta).finished = true)
    (hpos : 0 < sp.mean_time_between_enemies.ms) :
    (sp.tick time enemies ct sample).1.mean_time_between_enemies
      = sp.mean_time_between_enemies.mul_f64 (97/100)
    ∧ (sp.tick time enemies ct sample).1.mean_time_between_enemies.ms
        < sp.mean_time_between_enemies.ms
    ∧ (sp.tick time enemies ct sample).1.time_to_next_spawn.elapsed.ms = 0
    ∧ (sp.tick time enemies ct sample).1.time_to_next_spawn.duration
        = Duration.from_secs_f64 (min (max sample 1) 10)
    ∧ 1000 ≤ (sp.tick time enemies ct sample).1.time_to_next_spawn.duration.ms
    ∧ (sp.tick time enemies ct sample).1.time_to_next_spawn.duration.ms ≤ 10000
    ∧ (sp.tick time enemies ct sample).2
        = enemies ++ [Enemy.new (Duration.from_secs_f64 30) ct] := by
  have hsp : sp.tick time enemies ct sample
      = (⟨((sp.time_to_next_spawn.tick time.delta).set_duration
            (EnemySpawner.new_time_to_next_spawn
              (sp.mean_time_between_enemies.mul_f64 (97/100)) sample)).reset,
          sp.mean_time_between_enemies.mul_f64 (97/100)⟩,
        enemies ++ [Enemy.new (Duration.from_secs_f64 30) ct]) := by
    rw [EnemySpawner.tick]
    simp [hfin]
  rw [hsp]
  have hclamp1 : (1 : ℚ) ≤ min (max sample 1) 10 :=
    le_min (le_max_right sample 1) (by norm_num)
  have hclamp10 : min (max sample 1) 10 ≤ (10 : ℚ) := min_le_right _ _
  refine ⟨rfl, ?_, rfl, rfl, ?_, ?_⟩
  · show sp.mean_time_between_enemies.ms * (97/100) < sp.mean_time_between_enemies.ms
    nlinarith
  · show (1000 : ℚ) ≤ min (max sample 1) 10 * 1000
    nlinarith
  · constructor
    · show min (max sample 1) 10 * 1000 ≤ (10000 : ℚ)
      nlinarith
    · rfl

/-- Witness for C8 at concrete inputs: a spawner whose 1-second countdown is
ticked by 2 seconds, with an initial mean of 30 seconds and a sample of 42
(clamped to 10 seconds). -/
theorem C8_spawner_ramp_witness :
    ((EnemySpawner.mk (Timer.from_seconds 1 false) (Duration.from_secs_f64 30)).tick
        ⟨Duration.from_secs_f64 2⟩ [] CombatType.A 42).1.mean_time_between_enemies
      = (Duration.from_secs_f64 30).mul_f64 (97/100)
    ∧ ((EnemySpawner.mk (Timer.from_seconds 1 false) (Duration.from_secs_f64 30)).tick
        ⟨Duration.from_secs_f64 2⟩ [] CombatType.A 42).1.mean_time_between_enemies.ms
        < (Duration.from_secs_f64 30).ms
    ∧ ((EnemySpawner.mk (Timer.from_seconds 1 false) (Duration.from_secs_f64 30)).tick
        ⟨Duration.from_secs_f64 2⟩ [] CombatType.A 42).1.time_to_next_spawn.elapsed.ms = 0
    ∧ ((EnemySpawner.mk (Timer.from_seconds 1 false) (Duration.from_secs_f64 30)).tick
        ⟨Duration.from_secs_f64 2⟩ [] CombatType.A 42).1.time_to_next_spawn.duration
        = Duration.from_secs_f64 (min (max 42 1) 10)
    ∧ 1000 ≤ ((EnemySpawner.mk (Timer.from_seconds 1 false) (Duration.from_secs_f64 30)).tick
        ⟨Duration.from_secs_f64 2⟩ [] CombatType.A 42).1.time_to_next_spawn.duration.ms
    ∧ ((EnemySpawner.mk (Timer.from_seconds 1 false) (Duration.from_secs_f64 30)).tick
        ⟨Duration.from_secs_f64 2⟩ [] CombatType.A 42).1.time_to_next_spawn.duration.ms ≤ 10000
    ∧ ((EnemySpawner.mk (Timer.from_seconds 1 false) (Duration.from_secs_f64 30)).tick
        ⟨Duration.from_secs_f64 2⟩ [] CombatType.A 42).2
        = [] ++ [Enemy.new (Duration.from_secs_f64 30) CombatType.A] := by
  exact C8_spawner_ramp (EnemySpawner.mk (Timer.from_seconds 1 false)
      (Duration.from_secs_f64 30)) ⟨Duration.from_secs_f64 2⟩ [] CombatType.A 42
    (by norm_num [Timer.finished, Time.delta]) (by simp)

theorem TokenPool.applyOps_bounds {T : Type} (p : TokenPool T) (ops : List PoolOp)
    (h1 : 1 ≤ p.strong_count) (h2 : p.strong_count ≤ p.max_count + 1) :
    1 ≤ (p.applyOps ops).strong_count
    ∧ (p.applyOps ops).strong_count ≤ (p.applyOps ops).max_count + 1
    ∧ (p.applyOps ops).max_count = p.max_count := by
  induction ops generalizing p with
  | nil => exact ⟨h1, h2, rfl⟩
  | cons op ops ih =>
      have hstep : 1 ≤ (p.apply op).strong_count
          ∧ (p.apply op).strong_count ≤ p.max_count + 1
          ∧ (p.apply op).max_count = p.max_count := by
        cases op with
        | take =>
            simp only [TokenPool.apply, TokenPool.try_take, TokenPool.can_take]
            by_cases hc : p.strong_count < p.max_count + 1
            · simp [hc]
              omega
            · simp [hc]
              omega
        | release =>
            simp only [TokenPool.apply, TokenPool.release]
            by_cases hc : 1 < p.strong_count
            · simp [hc]
              omega
            · simp [hc]
              omega
      have := ih (p.apply op) hstep.1 (hstep.2.2 ▸ hstep.2.1)
      exact ⟨this.1, this.2.1, this.2.2.trans hstep.2.2⟩

/-- A pool whose strong count has reached `max_count + 1` (all slots used) is
left unchanged by any sequence of events that contains no release. -/
theorem TokenPool.full_take_only {T : Type} (p : TokenPool T) (ops : List PoolOp)
    (hfull : p.strong_count = p.max_count + 1)
    (hnorel : PoolOp.release ∉ ops) :
    p.applyOps ops = p := by
  induction ops with
  | nil => rfl
  | cons op ops ih =>
      cases op with
      | take =>
          have hstep : p.apply PoolOp.take = p := by
            simp [TokenPool.apply, TokenPool.try_take, TokenPool.can_take, hfull]
          show (p.apply PoolOp.take).applyOps ops = p
          rw [hstep]
          exact ih (fun h => hnorel (List.mem_cons_of_mem _ h))
      | release => exact absurd (List.mem_cons_self _ _) hnorel

/-- Claim C1: starting from `TokenPool::new(n)`, after any sequence of
`try_take` and token-release events the outstanding count (`slots_used`)
never exceeds `max_count`; and once the pool is at capacity
(`slots_used = max_count`), `try_take` returns `None` and keeps returning
`None` across any further release-free events. -/
theorem C1_token_pool_invariant (n : ℕ) (ops more : List PoolOp)
    (hnorel : PoolOp.release ∉ more) :
    ((TokenPool.new ParkingSpace n).applyOps ops).slots_used ≤ n
    ∧ (((TokenPool.new ParkingSpace n).applyOps ops).slots_used = n →
        ((((TokenPool.new ParkingSpace n).applyOps ops).applyOps more).try_take.1 = none
          ∧ (((TokenPool.new ParkingSpace n).applyOps ops).applyOps more).slots_used = n)) := by
  have hb := TokenPool.applyOps_bounds (TokenPool.new ParkingSpace n) ops
    (le_refl 1) (by simp [TokenPool.new])
  have hmax : ((TokenPool.new ParkingSpace n).applyOps ops).max_count = n := hb.2.2
  constructor
  · simp only [TokenPool.slots_used]
    omega
  · intro hcap
    have hfull : ((TokenPool.new ParkingSpace n).applyOps ops).strong_count
        = ((TokenPool.new ParkingSpace n).applyOps ops).max_count + 1 := by
      simp only [TokenPool.slots_used] at hcap
      omega
    rw [TokenPool.full_take_only _ more hfull hnorel]
    constructor
    · simp [TokenPool.try_take, TokenPool.can_take, hfull]
    · simp only [TokenPool.slots_used]
      omega

/-- Witness for C1 at concrete inputs: a pool of capacity 1, one successful
take, then two further release-free takes keep yielding `None` and the
outstanding count stays at capacity. -/
theorem C1_token_pool_invariant_witness :
    ((TokenPool.new ParkingSpace 1).applyOps [PoolOp.take]).slots_used ≤ 1
    ∧ (((TokenPool.new ParkingSpace 1).applyOps [PoolOp.take]).slots_used = 1 →
        ((((TokenPool.new ParkingSpace 1).applyOps [PoolOp.take]).applyOps
            [PoolOp.take, PoolOp.take]).try_take.1 = none
          ∧ (((TokenPool.new ParkingSpace 1).applyOps [PoolOp.take]).applyOps
              [PoolOp.take, PoolOp.take]).slots_used = 1)) := by
  exact C1_token_pool_invariant 1 [PoolOp.take] [PoolOp.take, PoolOp.take]
    (by decide)

/-- Claim C2, as stated, fails: invoking `un_store` on an `InStorage` unit
with an exhausted pool does abort — the source calls
`parking_spaces.try_take().unwrap()`, and the `unwrap` of `None` panics
(modelled as `none`); the unit is not left in a recoverable unchanged
state. -/
theorem C2_counterexample :
    (TokenPool.new ParkingSpace 0).can_take = false
    ∧ Game.Unit.InStorage.un_store (TokenPool.new ParkingSpace 0) = none := by
  exact ⟨rfl, rfl⟩

/-- Claim C2 (amended): the "bring out of storage" player action is rejected
at the GUI layer when no token is available — the button is disabled, so
`un_store` is never invoked and the unit and pool are unchanged; but
`un_store` itself, invoked directly on an `InStorage` unit with an exhausted
pool, panics on the `unwrap` of `try_take()`'s `None` rather than failing
recoverably; with a token available it succeeds, the unit becoming
`UnStoring` with a 10-second timer and one more slot used. -/
theorem C2_unstore_exhaustion (u : Game.Unit) (p : TokenPool ParkingSpace) :
    (p.can_take = false → gui_bring_out u p true = some (u, p))
    ∧ (p.can_take = false → Game.Unit.InStorage.un_store p = none)
    ∧ (p.can_take = true →
        Game.Unit.InStorage.un_store p
          = some (Game.Unit.UnStoring (Timer.from_seconds 10 false) Token.mk,
              TokenPool.mk (p.strong_count + 1) p.max_count)) := by
  refine ⟨?_, ?_, ?_⟩ <;> intro h
  · simp [gui_bring_out, h]
  · simp [Unit.un_store, TokenPool.try_take, h]
  · simp [Unit.un_store, TokenPool.try_take, h]

/-- Witness for C2 (amended) at concrete inputs: pools of capacity 0
(exhausted) and 3 (one slot taken on success). -/
theorem C2_unstore_exhaustion_witness :
    gui_bring_out Game.Unit.InStorage (TokenPool.new ParkingSpace 0) true
      = some (Game.Unit.InStorage, TokenPool.new ParkingSpace 0)
    ∧ Game.Unit.InStorage.un_store (TokenPool.new ParkingSpace 0) = none
    ∧ Game.Unit.InStorage.un_store (TokenPool.new ParkingSpace 3)
      = some (Game.Unit.UnStoring (Timer.from_seconds 10 false) Token.mk,
          TokenPool.mk 2 3) := by
  exact ⟨(C2_unstore_exhaustion Game.Unit.InStorage (TokenPool.new ParkingSpace 0)).1 rfl,
    (C2_unstore_exhaustion Game.Unit.InStorage (TokenPool.new ParkingSpace 0)).2.1 rfl,
    (C2_unstore_exhaustion Game.Unit.InStorage (TokenPool.new ParkingSpace 3)).2.2 rfl⟩

/-- Claim C4, as stated, fails: a `WaitingToPark` unit does not attempt token
acquisition on tick — `Unit::tick` does nothing for `WaitingToPark`, even
when the pool has tokens available, so no automatic transition to
`ParkedUnready` happens. -/
theorem C4_counterexample :
    (TokenPool.new ParkingSpace 3).can_take = true
    ∧ Game.Unit.WaitingToPark.tick ⟨Duration.from_secs_f64 1⟩
        = Game.Unit.WaitingToPark := by
  exact ⟨rfl, rfl⟩

/-- Claim C4 (amended): a `WaitingToPark` unit does nothing on tick (there is
no auto-retry); leaving the state requires the player's "Park" action, which
the GUI enables only while a token is available — when invoked it takes a
token and enters `Parking` with a 5-second timer, and when that timer
finishes the tick moves the unit to `ParkedUnready` holding the token. -/
theorem C4_waiting_to_park (time : Time) (p : TokenPool ParkingSpace)
    (timer : Timer) (token : Token ParkingSpace) :
    Game.Unit.WaitingToPark.tick time = Game.Unit.WaitingToPark
    ∧ (p.can_take = false →
        gui_park Game.Unit.WaitingToPark p true = some (Game.Unit.WaitingToPark, p))
    ∧ (p.can_take = true →
        Game.Unit.WaitingToPark.park_after_returning p
          = some (Game.Unit.Parking (Timer.from_seconds 5 false) Token.mk,
              TokenPool.mk (p.strong_count + 1) p.max_count))
    ∧ ((timer.tick time.delta).finished = true →
        (Game.Unit.Parking timer token).tick time = Game.Unit.ParkedUnready token) := by
  refine ⟨rfl, ?_, ?_, ?_⟩ <;> intro h
  · simp [gui_park, h]
  · simp [Unit.park_after_returning, TokenPool.try_take, h]
  · simp [Unit.tick, h]

/-- Witness for C4 (amended) at concrete inputs: a 1-second tick, pools of
capacity 0 and 3, and a 5-second parking timer ticked by 6 seconds. -/
theorem C4_waiting_to_park_witness :
    Game.Unit.WaitingToPark.tick ⟨Duration.from_secs_f64 6⟩ = Game.Unit.WaitingToPark
    ∧ gui_park Game.Unit.WaitingToPark (TokenPool.new ParkingSpace 0) true
        = some (Game.Unit.WaitingToPark, TokenPool.new ParkingSpace 0)
    ∧ Game.Unit.WaitingToPark.park_after_returning (TokenPool.new ParkingSpace 3)
        = some (Game.Unit.Parking (Timer.from_seconds 5 false) Token.mk,
            TokenPool.mk 2 3)
    ∧ (Game.Unit.Parking (Timer.from_seconds 5 false) Token.mk).tick
          ⟨Duration.from_secs_f64 6⟩
        = Game.Unit.ParkedUnready Token.mk := by
  refine ⟨(C4_waiting_to_park ⟨Duration.from_secs_f64 6⟩ (TokenPool.new ParkingSpace 0)
      (Timer.from_seconds 5 false) Token.mk).1,
    (C4_waiting_to_park ⟨Duration.from_secs_f64 6⟩ (TokenPool.new ParkingSpace 0)
      (Timer.from_seconds 5 false) Token.mk).2.1 rfl,
    (C4_waiting_to_park ⟨Duration.from_secs_f64 6⟩ (TokenPool.new ParkingSpace 3)
      (Timer.from_seconds 5 false) Token.mk).2.2.1 rfl,
    (C4_waiting_to_park ⟨Duration.from_secs_f64 6⟩ (TokenPool.new ParkingSpace 3)
      (Timer.from_seconds 5 false) Token.mk).2.2.2 ?_⟩
  norm_num [Timer.finished, Time.delta]

theorem hitRow_no_hit (e : Enemy) (r : UnitRow)
    (h : unit_hits e r.unit = false) : hitRow e r = r := by
  rw [hitRow, h]
  simp

theorem unit_hits_not_patrolling (e : Enemy) (u : Game.Unit)
    (h : ∀ timer ct, u ≠ Game.Unit.Patrolling timer ct) :
    unit_hits e u = false := by
  cases u
  case Patrolling timer ct => exact absurd rfl (h timer ct)
  all_goals rfl

theorem hitRow_patrolling_hit (e : Enemy) (timer : Timer) (ct : CombatType)
    (h : Health) (fl : Bool)
    (hh : unit_hits e (Game.Unit.Patrolling timer ct) = true) :
    hitRow e ⟨Game.Unit.Patrolling timer ct, h, fl⟩
      = ⟨Game.Unit.Returning timer ct, ⟨h.val - 1/4⟩,
          fl || decide (h.val - 1/4 ≤ 0)⟩ := by
  simp only [hitRow, hh, if_true, Health.take_hit]

theorem passRow_not_patrolling (es : List Enemy) (r : UnitRow)
    (h : ∀ timer ct, r.unit ≠ Game.Unit.Patrolling timer ct) :
    passRow es r = r := by
  induction es with
  | nil => rfl
  | cons e es ih =>
      show passRow es (hitRow e r) = r
      rw [hitRow_no_hit e r (unit_hits_not_patrolling e r.unit h), ih]

theorem passRow_patrolling (es : List Enemy) (timer : Timer) (ct : CombatType)
    (h : Health) (fl : Bool) :
    passRow es ⟨Game.Unit.Patrolling timer ct, h, fl⟩
      = if es.any (fun e => unit_hits e (Game.Unit.Patrolling timer ct)) then
          ⟨Game.Unit.Returning timer ct, ⟨h.val - 1/4⟩,
            fl || decide (h.val - 1/4 ≤ 0)⟩
        else ⟨Game.Unit.Patrolling timer ct, h, fl⟩ := by
  induction es with
  | nil => rfl
  | cons e es ih =>
      show passRow es (hitRow e ⟨Game.Unit.Patrolling timer ct, h, fl⟩) = _
      by_cases hh : unit_hits e (Game.Unit.Patrolling timer ct) = true
      · rw [hitRow_patrolling_hit e timer ct h fl hh,
          passRow_not_patrolling es _ (by intro t c hne; cases hne)]
        simp [List.any_cons, hh]
      · rw [Bool.not_eq_true] at hh
        rw [hitRow_no_hit e _ hh, ih]
        simp [List.any_cons, hh]

theorem meetEnemiesGo_rows (rows : List UnitRow) (es : List Enemy) :
    (meetEnemiesGo rows es).1 = rows.map (passRow es) := by
  induction es generalizing rows with
  | nil =>
      show rows = rows.map (passRow [])
      exact (List.map_id rows).symm
  | cons e es ih =>
      show (meetEnemiesGo (rows.map (hitRow e)) es).1 = rows.map (passRow (e :: es))
      rw [ih, List.map_map]
      rfl

theorem meetEnemiesGo_enemies_len (rows : List UnitRow) (es : List Enemy) :
    (meetEnemiesGo rows es).2.length ≤ es.length := by
  induction es generalizing rows with
  | nil => simp [meetEnemiesGo]
  | cons e es ih =>
      show (if (meetOneEnemy e rows).2
            then (meetEnemiesGo (meetOneEnemy e rows).1 es).2
            else e :: (meetEnemiesGo (meetOneEnemy e rows).1 es).2).length
          ≤ (e :: es).length
      by_cases hh : (meetOneEnemy e rows).2 = true
      · rw [if_pos hh]
        exact le_trans (ih _) (Nat.le_succ _)
      · rw [Bool.not_eq_true] at hh
        rw [if_neg (by simp [hh])]
        simpa using Nat.succ_le_succ (ih _)

theorem meetOneEnemy_no_hit (e : Enemy) (rows : List UnitRow)
    (h : ∀ r ∈ rows, unit_hits e r.unit = false) :
    meetOneEnemy e rows = (rows, false) := by
  rw [meetOneEnemy]
  refine Prod.ext ?_ ?_
  · show rows.map (hitRow e) = rows
    calc rows.map (hitRow e) = rows.map id :=
          List.map_congr_left (fun r hr => hitRow_no_hit e r (h r hr))
      _ = rows := List.map_id rows
  · show (rows.any fun r => unit_hits e r.unit) = false
    rw [List.any_eq_false]
    intro r hr
    simp [h r hr]

theorem meetEnemiesGo_no_hit (rows : List UnitRow) (es : List Enemy)
    (h : ∀ e ∈ es, ∀ r ∈ rows, unit_hits e r.unit = false) :
    meetEnemiesGo rows es = (rows, es) := by
  induction es with
  | nil => rfl
  | cons e es ih =>
      have h1 := meetOneEnemy_no_hit e rows (h e (List.mem_cons_self e es))
      show ((meetEnemiesGo (meetOneEnemy e rows).1 es).1,
            if (meetOneEnemy e rows).2 then (meetEnemiesGo (meetOneEnemy e rows).1 es).2
            else e :: (meetEnemiesGo (meetOneEnemy e rows).1 es).2)
          = (rows, e :: es)
      rw [h1]
      have h2 := ih (fun e2 he2 r hr => h e2 (List.mem_cons_of_mem _ he2) r hr)
      show ((meetEnemiesGo rows es).1,
            if false then (meetEnemiesGo rows es).2 else e :: (meetEnemiesGo rows es).2)
          = (rows, e :: es)
      rw [h2]
      simp

theorem rows_roundtrip (units : List (Game.Unit × Health)) :
    (((units.map fun uh => UnitRow.mk uh.1 uh.2 false).filter
        fun r => !r.despawned).map fun r => (r.unit, r.health)) = units := by
  induction units with
  | nil => rfl
  | cons uh us ih => simp [ih]

theorem unit_hits_enemyA40_patrolUnitA :
    unit_hits enemyA40 patrolUnitA = true := by
  show unit_hits enemyA40 (Game.Unit.Patrolling patrolTimerHalf CombatType.A) = true
  rw [unit_hits]
  norm_num [enemyA40, Enemy.new, Enemy.tick, Enemy.remaining_percent,
    Timer.percent_left, Timer.percent, Timer.tick, Timer.new, patrolTimerHalf,
    Duration.as_secs_f32, Duration.as_secs_f64, Time.delta, Duration.from_secs_f64,
    Unit.progress_percent, Timer.from_seconds]

theorem unit_hits_enemyA40_returning :
    unit_hits enemyA40 (Game.Unit.Returning patrolTimerHalf CombatType.A) = false := rfl

/-- Claim C3, as stated, fails on the enemy-removal half: with one patrolling
type-A unit at progress 0.5 and two type-A enemies both at remaining percent
0.4, both unit-enemy pairs satisfy the hit inequality, yet only the first
enemy is removed — the unit turns `Returning` while the first enemy is
processed, so it no longer passes the `suitable_units` filter when the
second enemy's turn comes, and the second enemy survives the pass. -/
theorem C3_counterexample :
    unit_hits enemyA40 patrolUnitA = true
    ∧ (units_meet_enemies [(patrolUnitA, Health.default)] [enemyA40, enemyA40]).2
        = [enemyA40] := by
  refine ⟨unit_hits_enemyA40_patrolUnitA, ?_⟩
  have h1 : hitRow enemyA40 (UnitRow.mk patrolUnitA Health.default false)
      = UnitRow.mk (Game.Unit.Returning patrolTimerHalf CombatType.A)
          ⟨Health.default.val - 1/4⟩
          (false || decide (Health.default.val - 1/4 ≤ 0)) :=
    hitRow_patrolling_hit enemyA40 patrolTimerHalf CombatType.A Health.default false
      unit_hits_enemyA40_patrolUnitA
  show (meetEnemiesGo [UnitRow.mk patrolUnitA Health.default false]
      [enemyA40, enemyA40]).2 = [enemyA40]
  simp only [meetEnemiesGo, meetOneEnemy, List.map_cons, List.map_nil,
    List.any_cons, List.any_nil, h1, unit_hits_enemyA40_patrolUnitA,
    unit_hits_enemyA40_returning, Bool.or_false]
  simp

/-- Claim C3 (amended): every unit that starts the pass `Patrolling` and
satisfies the hit inequality against some enemy of its type ends the pass
`Returning` with the patrol timer carried over unchanged and 0.25 less
health (provided the hit does not despawn it, i.e. its health exceeds
0.25); an enemy is removed provided some unit of its type is still
`Patrolling` and eligible when that enemy is processed in iteration order —
in particular the first enemy of the list with an eligible unit is removed;
and when no unit-enemy pair of matching type satisfies the inequality, both
collections are left unchanged. -/
theorem C3_combat_resolution (units : List (Game.Unit × Health))
    (es : List Enemy) :
    ((∀ e ∈ es, ∀ uh ∈ units, unit_hits e uh.1 = false) →
        units_meet_enemies units es = (units, es))
    ∧ (∀ timer ct h, (Game.Unit.Patrolling timer ct, h) ∈ units →
        (∃ e ∈ es, unit_hits e (Game.Unit.Patrolling timer ct) = true) →
        (1/4 : ℚ) < h.val →
        (Game.Unit.Returning timer ct, Health.mk (h.val - 1/4))
          ∈ (units_meet_enemies units es).1)
    ∧ (∀ e es2, es = e :: es2 →
        (∃ uh ∈ units, unit_hits e uh.1 = true) →
        (units_meet_enemies units es).2.length ≤ es2.length) := by
  refine ⟨?_, ?_, ?_⟩
  · intro hno
    have h' : ∀ e ∈ es, ∀ r ∈ (units.map fun uh => UnitRow.mk uh.1 uh.2 false),
        unit_hits e r.unit = false := by
      intro e he r hr
      obtain ⟨uh, huh, hrfl⟩ := List.mem_map.mp hr
      rw [← hrfl]
      exact hno e he uh huh
    show ((((meetEnemiesGo (units.map fun uh => UnitRow.mk uh.1 uh.2 false) es).1.filter
          fun r => !r.despawned).map fun r => (r.unit, r.health)),
        (meetEnemiesGo (units.map fun uh => UnitRow.mk uh.1 uh.2 false) es).2)
      = (units, es)
    rw [meetEnemiesGo_no_hit _ _ h']
    exact Prod.ext (rows_roundtrip units) rfl
  · intro timer ct h hmem hex hh
    have hrmem : UnitRow.mk (Game.Unit.Patrolling timer ct) h false
        ∈ units.map (fun uh => UnitRow.mk uh.1 uh.2 false) :=
      List.mem_map.mpr ⟨(Game.Unit.Patrolling timer ct, h), hmem, rfl⟩
    have hany : (es.any fun e => unit_hits e (Game.Unit.Patrolling timer ct)) = true := by
      rw [List.any_eq_true]
      obtain ⟨e, he, hhit⟩ := hex
      exact ⟨e, he, hhit⟩
    have hflag : decide (h.val - 1/4 ≤ 0) = false := by
      simp only [decide_eq_false_iff_not, not_le]
      linarith
    have hpass : passRow es (UnitRow.mk (Game.Unit.Patrolling timer ct) h false)
        = UnitRow.mk (Game.Unit.Returning timer ct) ⟨h.val - 1/4⟩ false := by
      rw [passRow_patrolling, hany, if_pos rfl, hflag]
      simp
    have hfinal : UnitRow.mk (Game.Unit.Returning timer ct) ⟨h.val - 1/4⟩ false
        ∈ (meetEnemiesGo (units.map fun uh => UnitRow.mk uh.1 uh.2 false) es).1 := by
      rw [meetEnemiesGo_rows]
      exact List.mem_map.mpr ⟨_, hrmem, hpass⟩
    have hkeep : UnitRow.mk (Game.Unit.Returning timer ct) ⟨h.val - 1/4⟩ false
        ∈ ((meetEnemiesGo (units.map fun uh => UnitRow.mk uh.1 uh.2 false) es).1.filter
            fun r => !r.despawned) :=
      List.mem_filter.mpr ⟨hfinal, rfl⟩
    exact List.mem_map.mpr ⟨_, hkeep, rfl⟩
  · intro e es2 hes hex
    subst hes
    have hany : ((units.map fun uh => UnitRow.mk uh.1 uh.2 false).any
        fun r => unit_hits e r.unit) = true := by
      rw [List.any_eq_true]
      obtain ⟨uh, huh, hhit⟩ := hex
      exact ⟨UnitRow.mk uh.1 uh.2 false, List.mem_map.mpr ⟨uh, huh, rfl⟩, hhit⟩
    show (if (meetOneEnemy e (units.map fun uh => UnitRow.mk uh.1 uh.2 false)).2
        then (meetEnemiesGo (meetOneEnemy e
            (units.map fun uh => UnitRow.mk uh.1 uh.2 false)).1 es2).2
        else e :: (meetEnemiesGo (meetOneEnemy e
            (units.map fun uh => UnitRow.mk uh.1 uh.2 false)).1 es2).2).length
      ≤ es2.length
    have hstep : (meetOneEnemy e (units.map fun uh => UnitRow.mk uh.1 uh.2 false)).2
        = true := hany
    rw [if_pos hstep]
    exact meetEnemiesGo_enemies_len _ _

/-- Witness for C3 (amended) at the spec's scenario 3: one patrolling type-A
unit at progress 0.5 and one type-A enemy at remaining percent 0.4; the unit
ends the pass `Returning` with the patrol timer carried over and health
reduced by 0.25. -/
theorem C3_combat_resolution_witness :
    (Game.Unit.Returning patrolTimerHalf CombatType.A,
        Health.mk (Health.default.val - 1/4))
      ∈ (units_meet_enemies [(patrolUnitA, Health.default)] [enemyA40]).1 := by
  refine (C3_combat_resolution [(patrolUnitA, Health.default)] [enemyA40]).2.1
    patrolTimerHalf CombatType.A Health.default ?_ ?_ ?_
  · exact List.mem_singleton.mpr rfl
  · exact ⟨enemyA40, List.mem_singleton.mpr rfl, unit_hits_enemyA40_patrolUnitA⟩
  · norm_num [Health.default]

theorem hitRow_fresh_despawned (e : Enemy) (u : Game.Unit) (h : Health)
    (hh : (1/4 : ℚ) < h.val) :
    (hitRow e (UnitRow.mk u h false)).despawned = false := by
  cases hu : unit_hits e u with
  | false => rw [hitRow_no_hit e _ hu]
  | true =>
      cases u
      case Patrolling timer ct =>
          rw [hitRow_patrolling_hit e timer ct h false hu]
          show (false || decide (h.val - 1/4 ≤ 0)) = false
          rw [Bool.false_or, decide_eq_false_iff_not, not_le]
          linarith
      all_goals exact absurd hu (by simp [unit_hits])

theorem hitRow_fresh_pair (e : Enemy) (u : Game.Unit) (h : Health) :
    ((hitRow e (UnitRow.mk u h false)).unit, (hitRow e (UnitRow.mk u h false)).health)
      = if unit_hits e u then
          match u with
          | Game.Unit.Patrolling timer ct =>
              (Game.Unit.Returning timer ct, Health.mk (h.val - 1/4))
          | _ => (u, h)
        else (u, h) := by
  cases hu : unit_hits e u with
  | false => rw [hitRow_no_hit e _ hu, if_neg (by simp [hu])]
  | true =>
      rw [if_pos (by simp [hu])]
      cases u
      case Patrolling timer ct =>
          rw [hitRow_patrolling_hit e timer ct h false hu]
      all_goals exact absurd hu (by simp [unit_hits])

/-- Claim C9, as stated, fails: with two patrolling type-A units both at
progress 0.5 and one type-A enemy at remaining percent 0.4, both units are
eligible and both transition to `Returning` and take 0.25 damage in the same
pass — the inner loop has no `break` and the enemy's despawn is deferred, so
more than one unit can win against the same enemy per tick. -/
theorem C9_counterexample :
    unit_hits enemyA40 patrolUnitA = true
    ∧ (units_meet_enemies
          [(patrolUnitA, Health.default), (patrolUnitA, Health.default)]
          [enemyA40]).1
      = [(Game.Unit.Returning patrolTimerHalf CombatType.A,
            Health.mk (Health.default.val - 1/4)),
         (Game.Unit.Returning patrolTimerHalf CombatType.A,
            Health.mk (Health.default.val - 1/4))] := by
  refine ⟨unit_hits_enemyA40_patrolUnitA, ?_⟩
  have h1 : hitRow enemyA40 (UnitRow.mk patrolUnitA Health.default false)
      = UnitRow.mk (Game.Unit.Returning patrolTimerHalf CombatType.A)
          ⟨Health.default.val - 1/4⟩
          (false || decide (Health.default.val - 1/4 ≤ 0)) :=
    hitRow_patrolling_hit enemyA40 patrolTimerHalf CombatType.A Health.default false
      unit_hits_enemyA40_patrolUnitA
  have hflag : decide (Health.default.val - 1/4 ≤ 0) = false := by
    norm_num [Health.default]
  show (((meetEnemiesGo
        [UnitRow.mk patrolUnitA Health.default false,
          UnitRow.mk patrolUnitA Health.default false] [enemyA40]).1.filter
      fun r => !r.despawned).map fun r => (r.unit, r.health)) = _
  simp only [meetEnemiesGo, meetOneEnemy, List.map_cons, List.map_nil, h1, hflag,
    Bool.or_false]
  simp

/-- Claim C9 (amended): within one resolver pass over a single enemy, every
eligible unit — each one Patrolling with the enemy's combat type and
progress ≥ the enemy's remaining percent — transitions to `Returning` with
the patrol timer carried over and takes 0.25 damage (here under the proviso
that no unit's health is depleted to ≤ 0 by the hit), not just the first in
iteration order; the enemy is removed once provided at least one unit is
eligible. -/
theorem C9_all_eligible_units_hit (units : List (Game.Unit × Health)) (e : Enemy)
    (hhealth : ∀ uh ∈ units, (1/4 : ℚ) < uh.2.val) :
    (units_meet_enemies units [e]).1
      = units.map (fun uh =>
          if unit_hits e uh.1 then
            match uh.1 with
            | Game.Unit.Patrolling timer ct =>
                (Game.Unit.Returning timer ct, Health.mk (uh.2.val - 1/4))
            | _ => (uh.1, uh.2)
          else (uh.1, uh.2))
    ∧ ((∃ uh ∈ units, unit_hits e uh.1 = true) →
        (units_meet_enemies units [e]).2 = []) := by
  constructor
  · show (((meetEnemiesGo (units.map fun uh => UnitRow.mk uh.1 uh.2 false) [e]).1.filter
        fun r => !r.despawned).map fun r => (r.unit, r.health)) = _
    rw [meetEnemiesGo_rows, List.map_map]
    have hrows : (units.map (passRow [e] ∘ fun uh => UnitRow.mk uh.1 uh.2 false))
        = units.map (fun uh => hitRow e (UnitRow.mk uh.1 uh.2 false)) := rfl
    rw [hrows]
    have hflags : ∀ r ∈ units.map (fun uh => hitRow e (UnitRow.mk uh.1 uh.2 false)),
        (!r.despawned) = true := by
      intro r hr
      obtain ⟨uh, huh, hrfl⟩ := List.mem_map.mp hr
      rw [← hrfl, hitRow_fresh_despawned e uh.1 uh.2 (hhealth uh huh)]
      rfl
    rw [List.filter_eq_self.mpr hflags, List.map_map]
    exact List.map_congr_left (fun uh _ => hitRow_fresh_pair e uh.1 uh.2)
  · intro hex
    have hany : ((units.map fun uh => UnitRow.mk uh.1 uh.2 false).any
        fun r => unit_hits e r.unit) = true := by
      rw [List.any_eq_true]
      obtain ⟨uh, huh, hhit⟩ := hex
      exact ⟨UnitRow.mk uh.1 uh.2 false, List.mem_map.mpr ⟨uh, huh, rfl⟩, hhit⟩
    show (if (meetOneEnemy e (units.map fun uh => UnitRow.mk uh.1 uh.2 false)).2
        then (meetEnemiesGo (meetOneEnemy e
            (units.map fun uh => UnitRow.mk uh.1 uh.2 false)).1 []).2
        else e :: (meetEnemiesGo (meetOneEnemy e
            (units.map fun uh => UnitRow.mk uh.1 uh.2 false)).1 []).2) = []
    have hstep : (meetOneEnemy e
        (units.map fun uh => UnitRow.mk uh.1 uh.2 false)).2 = true := hany
    rw [if_pos hstep]
    rfl

/-- Witness for C9 (amended) at concrete inputs: both of two eligible
patrolling type-A units are converted against the one type-A enemy, which is
removed. -/
theorem C9_all_eligible_units_hit_witness :
    (units_meet_enemies
        [(patrolUnitA, Health.default), (patrolUnitA, Health.default)]
        [enemyA40]).1
      = [(patrolUnitA, Health.default), (patrolUnitA, Health.default)].map
          (fun uh =>
            if unit_hits enemyA40 uh.1 then
              match uh.1 with
              | Game.Unit.Patrolling timer ct =>
                  (Game.Unit.Returning timer ct, Health.mk (uh.2.val - 1/4))
              | _ => (uh.1, uh.2)
            else (uh.1, uh.2))
    ∧ (units_meet_enemies
        [(patrolUnitA, Health.default), (patrolUnitA, Health.default)]
        [enemyA40]).2 = [] := by
  have hmain := C9_all_eligible_units_hit
    [(patrolUnitA, Health.default), (patrolUnitA, Health.default)] enemyA40
    (by
      intro uh hm
      rcases List.mem_cons.mp hm with h | h
      · rw [h]; norm_num [Health.default]
      · rw [List.mem_singleton.mp h]; norm_num [Health.default])
  exact ⟨hmain.1, hmain.2
    ⟨(patrolUnitA, Health.default), List.mem_cons_self _ _,
      unit_hits_enemyA40_patrolUnitA⟩⟩

theorem MyGame.update_game_over (g : MyGame) (ct : CombatType) (sample : ℚ)
    (h : g.game_state = GameState.GameOver) :
    g.update ct sample = g := by
  rw [MyGame.update, if_neg]
  rw [h]
  intro hc
  cases hc

/-- Claim C7: the game state transitions one way from `Running` to
`GameOver`: a frame update from `GameOver` changes nothing (all core systems
are gated on `Running` and `gui` reads the state by shared reference); a
frame update from `Running` in which some enemy's progress timer finishes
sets the state to `GameOver`; and from `GameOver` any sequence of further
frame updates leaves the state `GameOver`. -/
theorem C7_game_over_monotonic (g : MyGame) (ct : CombatType) (sample : ℚ)
    (draws : List (CombatType × ℚ)) :
    (g.game_state = GameState.GameOver →
        (g.update ct sample).game_state = GameState.GameOver)
    ∧ (g.game_state = GameState.Running →
        (∃ e ∈ g.enemies, (e.tick g.time).progress.finished = true) →
        (g.update ct sample).game_state = GameState.GameOver)
    ∧ (g.game_state = GameState.GameOver →
        (draws.foldl (fun st d => st.update d.1 d.2) g).game_state
          = GameState.GameOver) := by
  refine ⟨?_, ?_, ?_⟩
  · intro h
    rw [MyGame.update_game_over g ct sample h]
    exact h
  · intro hr hex
    rw [MyGame.update, if_pos hr]
    show (ticker g.time g.units g.enemies g.game_state).2.2 = GameState.GameOver
    have hany : ((g.enemies.map fun e => e.tick g.time).any
        fun e => e.progress.finished) = true := by
      rw [List.any_eq_true]
      obtain ⟨e, he, hf⟩ := hex
      exact ⟨e.tick g.time, List.mem_map.mpr ⟨e, he, rfl⟩, hf⟩
    show (if ((g.enemies.map fun e => e.tick g.time).any fun e => e.progress.finished)
        then GameState.GameOver else g.game_state) = GameState.GameOver
    rw [if_pos hany]
  · intro h
    induction draws generalizing g with
    | nil => exact h
    | cons d ds ih =>
        show (ds.foldl (fun st d => st.update d.1 d.2) (g.update d.1 d.2)).game_state
          = GameState.GameOver
        refine ih (g.update d.1 d.2) ?_
        rw [MyGame.update_game_over g d.1 d.2 h]
        exact h

/-- Witness for C7 at concrete sessions: an update from a `GameOver` session
stays `GameOver`; an update of a running session whose 1-second enemy
finishes within the 2-second frame becomes `GameOver`; two further updates
of the game-over session stay `GameOver`. -/
theorem C7_game_over_monotonic_witness :
    (gameOverSession.update CombatType.A 5).game_state = GameState.GameOver
    ∧ (runningHitSession.update CombatType.A 5).game_state = GameState.GameOver
    ∧ ([(CombatType.A, (5 : ℚ)), (CombatType.B, 7)].foldl
          (fun st d => st.update d.1 d.2) gameOverSession).game_state
        = GameState.GameOver := by
  refine ⟨(C7_game_over_monotonic gameOverSession CombatType.A 5 []).1 rfl,
    (C7_game_over_monotonic runningHitSession CombatType.A 5 []).2.1 rfl ?_,
    (C7_game_over_monotonic gameOverSession CombatType.A 5
      [(CombatType.A, (5 : ℚ)), (CombatType.B, 7)]).2.2 rfl⟩
  refine ⟨finishingEnemy, List.mem_singleton.mpr rfl, ?_⟩
  norm_num [finishingEnemy, Enemy.new, Enemy.tick, Timer.finished, Timer.tick,
    Timer.new, Time.delta, runningHitSession, sampleTime]

end Game
